import Mathlib

/-!
Verification development for the power-data-downloader repository.

The Python source is shallowly embedded as executable Lean definitions:
  - pandas DataFrames become the Table type (named columns, rows of cells)
    or the Frame type (positional cells that may be missing, for the
    plausibility validator);
  - numeric cells are modelled as Int, date cells at day granularity as Nat,
    text cells as String;
  - Python code that can raise returns Option or Except;
  - the two driver loops (download_data in power_data_architecture.py and
    download in power_data_downloader_architecture.py) are embedded as
    per-combination step functions that emit an event trace.
-/

/-- A single cell of an archive or tracking table: text, a calendar date at
day granularity (encoded as a Nat, e.g. 20240501), or a number. -/
inductive Cell where
  | str (s : String)
  | date (d : Nat)
  | num (n : Int)
deriving DecidableEq, Repr

/-- A pandas DataFrame with named columns, as used by the archive and
tracking files: a list of column names and rows of cells. -/
structure Table where
  cols : List String
  rows : List (List Cell)
deriving DecidableEq, Repr

/-- Projection of one row onto the columns whose name is in
columns_to_check, keeping the original column order.  This is the effect of
the drop(columns=columns_to_drop) calls in check_archive
(power_data_utils.py) and import_exsting_combinations_file
(power_data_downloader_utils.py), which drop every column not listed. -/
def projectRow (cols : List String) (columnsToCheck : List String) (row : List Cell) : List Cell :=
  (cols.zip row).filterMap (fun p => if p.1 ∈ columnsToCheck then some p.2 else none)

/-- The column names kept by the projection, in original order. -/
def projectCols (cols : List String) (columnsToCheck : List String) : List String :=
  cols.filter (fun c => c ∈ columnsToCheck)

/-- pandas drop_duplicates: remove duplicate rows, keeping the first
occurrence of each. -/
def dedupRows (seen : List (List Cell)) : List (List Cell) → List (List Cell)
  | [] => []
  | r :: rest =>
    if r ∈ seen then dedupRows seen rest else r :: dedupRows (r :: seen) rest

/-- check_existing_combinations (power_data_downloader_utils.py, lines
61-92): ((archive_df == combination).all(axis=1)).any() — true when some
row of the frame is cell-by-cell equal to the combination. -/
def check_existing_combinations (t : Table) (combination : List Cell) : Bool :=
  t.rows.any (fun r => r == combination)

/-- check_archive (power_data_utils.py, lines 37-82): drop the columns not
in columns_to_check, drop duplicate rows, then test whether some remaining
row equals the combination cell-by-cell. -/
def check_archive (t : Table) (combination : List Cell) (columnsToCheck : List String) : Bool :=
  let projected := t.rows.map (projectRow t.cols columnsToCheck)
  (dedupRows [] projected).any (fun r => r == combination)

/-- A pandas DataFrame as seen by the plausibility validator: a fixed
number of columns and rows of cells where none models NaN. -/
structure Frame where
  ncols : Nat
  rows : List (List (Option Cell))
deriving DecidableEq, Repr

/-- df.isna().all().all(): every cell of the frame is missing (vacuously
true for a frame with no rows or no columns, as in pandas). -/
def isnaAllAll (f : Frame) : Bool :=
  f.rows.all (fun r => r.all Option.isNone)

/-- df.isna().all(axis=0) for one column index: every row has a missing
value in that column. -/
def colAllNaN (f : Frame) (j : Nat) : Bool :=
  f.rows.all (fun r => (r.getD j none).isNone)

/-- plausibility_checks (power_data_utils.py, lines 345-397): false if the
whole frame is NaN, false if the list of all-NaN columns is nonempty,
true otherwise. -/
def plausibility_checks (f : Frame) : Bool :=
  if isnaAllAll f then false
  else
    if ((List.range f.ncols).filter (fun j => colAllNaN f j)).length > 0 then false
    else true

/-- Look up the cell of a row under a given column name, none when the
column is absent or the row is too short. -/
def lookupCell (cols : List String) (row : List Cell) (name : String) : Option Cell :=
  match cols.indexOf? name with
  | some i => row.get? i
  | none => none

/-- Parse an ISO date string YYYY-MM-DD into the day-granularity Nat
encoding, as pd.to_datetime followed by .dt.date does for the tracking
file date columns. -/
def parseISODate (s : String) : Option Nat :=
  match (s.splitOn "-").map String.toNat? with
  | [some y, some m, some d] => some (y * 10000 + m * 100 + d)
  | _ => some 0 |>.bind (fun _ => none)

/-- pd.to_datetime(cell).dt.date on one cell: a date stays a date, a valid
ISO string becomes a date, anything else makes the conversion fail. -/
def toDateCell : Cell → Option Cell
  | .date d => some (.date d)
  | .str s => (parseISODate s).map Cell.date
  | .num _ => none

/-- The DeliveryDate conversion of import_exsting_combinations_file
(power_data_downloader_utils.py, line 42):
archive_df["DeliveryDate"] = pd.to_datetime(archive_df["DeliveryDate"]).dt.date,
failing when the column is absent or a cell does not parse. -/
def convertDeliveryDate (t : Table) : Option Table :=
  match t.cols.indexOf? "DeliveryDate" with
  | none => none
  | some i =>
    (t.rows.mapM (fun (r : List Cell) =>
      match r.get? i with
      | none => none
      | some c => (toDateCell c).map (fun c2 => r.set i c2))).map
      (fun rs => Table.mk t.cols rs)

/-- Is the SuccessIndicator cell of this row the literal string Error?
pandas keeps a row under the filter df["SuccessIndicator"] != "Error"
exactly when this is false (missing values compare unequal and are kept). -/
def successIsError (cols : List String) (row : List Cell) : Bool :=
  lookupCell cols row "SuccessIndicator" == some (Cell.str "Error")

/-- import_exsting_combinations_file (power_data_downloader_utils.py,
lines 12-59), applied to the already-imported tracking table: convert the
DeliveryDate column to day granularity, drop the rows whose
SuccessIndicator equals Error, drop the columns not in columns_to_check,
then drop duplicate rows.  none models a raised exception (missing
DeliveryDate or SuccessIndicator column, or an unparsable date). -/
def import_exsting_combinations_file (t : Table) (columnsToCheck : List String) :
    Option Table :=
  match convertDeliveryDate t with
  | none => none
  | some t1 =>
    if "SuccessIndicator" ∈ t1.cols then
      let filtered := t1.rows.filter (fun r => !(successIsError t1.cols r))
      let projected := filtered.map (projectRow t1.cols columnsToCheck)
      some (Table.mk (projectCols t1.cols columnsToCheck) (dedupRows [] projected))
    else none

/-- File-system side effects of the tracking-ledger update. -/
inductive FileEv where
  | fread
  | fwrite
deriving DecidableEq, Repr

/-- update_tracking_file (power_data_downloader_utils.py, lines 571-625).
The tracking file content is modelled as Option (List (List String)):
none when the file does not exist, otherwise the list of CSV rows.  The
result pairs the outcome (new file content, or the uncaught exception)
with the trace of file reads and writes actually performed.  The assert on
the two lengths runs before any file access; reading an existing empty
file makes rows[0] raise IndexError after the read but before any write.
The same read-insert-rewrite logic appears inline in download_data
(power_data_architecture.py, lines 339-376). -/
def update_tracking_file (file : Option (List (List String)))
    (trackingData headerRow : List String) :
    Except String (List (List String)) × List FileEv :=
  if trackingData.length ≠ headerRow.length then
    (.error "AssertionError", [])
  else
    match file with
    | some rows =>
      match rows with
      | [] => (.error "IndexError", [.fread])
      | header :: dataRows =>
        (.ok (header :: trackingData :: dataRows), [.fread, .fwrite])
    | none => (.ok [headerRow, trackingData], [.fwrite])

/-- Python str.strip() on the character list: drop leading and trailing
whitespace. -/
def stripChars (l : List Char) : List Char :=
  ((l.dropWhile Char.isWhitespace).reverse.dropWhile Char.isWhitespace).reverse

/-- Python str.strip() on a string. -/
def pyStrip (s : String) : String :=
  String.mk (stripChars s.data)

/-- One li element inside the hours list: its class attribute values and
the text of its a child (none when it has no a child, in which case
li.find("a").text raises AttributeError). -/
structure LiNode where
  classes : List String
  aText : Option String
deriving DecidableEq, Repr

/-- The div with class fixed-column js-table-times: its ul child holding
the li elements, or none when the ul is absent. -/
structure HoursContainer where
  ul : Option (List LiNode)
deriving DecidableEq, Repr

/-- A fetched page as seen by the hour extractors: the hour-list container
div, or none when soup.find returns None. -/
structure HoursDoc where
  container : Option HoursContainer
deriving DecidableEq, Repr

/-- extract_hours (power_data_downloader_utils.py, lines 210-244, same
body in power_data_utils.py): hours_div.find("ul").find_all("li") raises
AttributeError when the container or the ul is absent; otherwise each li
contributes li.find("a").text.strip(). -/
def extract_hours (d : HoursDoc) : Except String (List String) :=
  match d.container with
  | none => .error "AttributeError"
  | some c =>
    match c.ul with
    | none => .error "AttributeError"
    | some lis =>
      lis.mapM (fun li =>
        match li.aText with
        | none => Except.error "AttributeError"
        | some t => Except.ok (pyStrip t))

/-- Does the class attribute of this li contain child? -/
def liChild (n : LiNode) : Bool :=
  n.classes.contains "child"

/-- li.find("a").text.strip() on one node, raising when the a child is
absent. -/
def getAText (n : LiNode) : Except String String :=
  match n.aText with
  | none => .error "AttributeError"
  | some t => .ok (pyStrip t)

/-- The sibling walk inside extract_hours_continous: starting right after
one hour block, collect the texts of lvl-1 and lvl-2 siblings in document
order, stopping at the next li whose class list contains child (or at the
end of the list); other siblings are skipped. -/
def collectSubs : List LiNode → Except String (List String)
  | [] => .ok []
  | n :: rest =>
    if liChild n then .ok []
    else
      if n.classes.contains "lvl-1" then do
        let t ← getAText n
        let ts ← collectSubs rest
        return t :: ts
      else
        if n.classes.contains "lvl-2" then do
          let t ← getAText n
          let ts ← collectSubs rest
          return t :: ts
        else collectSubs rest

/-- The outer loop of extract_hours_continous over
hours_div.find_all("li", class_="child"): each li whose class list
contains child contributes its own label followed by the lvl-1 and lvl-2
labels of the siblings up to the next such li. -/
def processBlocks : List LiNode → Except String (List String)
  | [] => .ok []
  | n :: rest =>
    if liChild n then do
      let h ← getAText n
      let subs ← collectSubs rest
      let more ← processBlocks rest
      return h :: (subs ++ more)
    else processBlocks rest

/-- extract_hours_continous (power_data_downloader_utils.py, lines
246-315): returns the empty list when the container div is absent (the
explicit early return on line 290, also taken when the div has no
children, since an empty bs4 tag is falsy) and interleaves hour blocks
with their sub-interval labels otherwise; an absent ul simply yields no li
elements to find_all. -/
def extract_hours_continous (d : HoursDoc) : Except String (List String) :=
  match d.container with
  | none => .ok []
  | some c =>
    match c.ul with
    | none => .ok []
    | some lis => processBlocks lis

/-- The row-assembly loop shared by download_data
(power_data_architecture.py, lines 237-255) and download
(power_data_downloader_architecture.py, lines 251-275):
for index, row in enumerate(data): the metadata prefix, then
hours[index], then the numeric entries of data[index].  Indexing hours
past its end raises IndexError, which the surrounding try converts into a
failed assembly, so the whole result is none; hour labels beyond the
length of data are silently never read. -/
def assembleRows (meta : List Cell) (hours : List String) (data : List (List Cell)) :
    Option (List (List Cell)) :=
  go 0 data
where
  go : Nat → List (List Cell) → Option (List (List Cell))
    | _, [] => some []
    | i, row :: rest =>
      match hours.get? i with
      | none => none
      | some h =>
        match go (i + 1) rest with
        | none => none
        | some rs => some ((meta ++ [Cell.str h] ++ row) :: rs)

/-- Observable actions of one pass of a driver loop over one combination. -/
inductive Event where
  | fetch
  | appendHours
  | appendBasePeak
  | track
  | sleep
deriving DecidableEq, Repr

/-- The value of the num_hours_records and base_peak_sucess locals of
download_data: the initial None, the Error sentinel, a row count, or the
Success sentinel. -/
inductive TrackVal where
  | noneV
  | errorV
  | countV (n : Nat)
  | successV
deriving DecidableEq, Repr

/-- What each extractor yields on the page fetched for one combination,
with none standing for a raised exception: extract_soup itself,
extract_last_update, extract_hours, extract_volume_and_price_data and
extract_baseload_peakload (whose two components are None when the matching
table row is absent). -/
structure Page where
  fetchOk : Bool
  lastUpdate : Option String
  hours : Option (List String)
  volumePrice : Option (List (List Cell))
  basePeak : Option (Option Cell × Option Cell)
deriving DecidableEq, Repr

/-- Result of one pass of download_data over one combination: the events
that happened, and whether the pass ended in an uncaught exception (the
local variables soup, last_update, hours, hourly_data, hourly_data_df and
base_peak are not reset between combinations, so a read of a variable
whose binding step failed raises NameError on the first combination; the
model uses these fresh-variable semantics). -/
structure StepResult where
  events : List Event
  crashed : Bool
deriving DecidableEq, Repr

/-- Lines 197-279 of power_data_architecture.py, entered with
num_hours_records not yet Error: extract hours and the volume/price table,
run the elif chains of plausibility conditions, assemble the rows, build
the 12-column DataFrame and append it to the hourly archive when
plausibility_checks passes.  Returns none when the pass crashes: a failed
extraction is caught but the very next condition reads the unbound
variable (lines 206, 221, 268), and an empty table with the error flag
already set reads hourly_data[0] outside any try (line 225). -/
def hoursBlock (meta : List Cell) (p : Page) : Option (TrackVal × Bool) :=
  match p.hours with
  | none => none
  | some hs =>
    let n1 : TrackVal :=
      if hs.length == 0 then .errorV
      else if (hs.headD "").length < 2 then .errorV
      else .noneV
    match p.volumePrice with
    | none => none
    | some hd =>
      if hd.length == 0 then
        if n1 = .errorV then none else some (.errorV, false)
      else
        let n2 : TrackVal :=
          if n1 = .errorV then .errorV
          else if (hd.headD []).length == 0 then .errorV
          else if (hd.getLast?.getD []).length == 0 then .errorV
          else if (hd.headD []).length != 4 || (hd.getLast?.getD []).length != 4 then .errorV
          else .noneV
        if n2 = .errorV then some (.errorV, false)
        else
          match assembleRows meta hs hd with
          | none => none
          | some rows =>
            if rows.any (fun r => r.length != 12) then none
            else
              if plausibility_checks (Frame.mk 12 (rows.map (fun r => r.map some))) then
                some (.countV rows.length, true)
              else some (.errorV, false)

/-- Lines 281-323 of power_data_architecture.py, entered with
base_peak_sucess not yet Error: extract the baseload/peakload pair, flag
Error when either is None, otherwise build the one-row 9-column DataFrame
and append it to the base/peak archive when plausibility_checks passes.
none models the crash when the extraction raises: the except clause is
followed by a read of the unbound base_peak variable (line 290). -/
def basePeakBlock (meta : List Cell) (p : Page) : Option (TrackVal × Bool) :=
  match p.basePeak with
  | none => none
  | some pair =>
    match pair.1, pair.2 with
    | some bv, some pv =>
      if plausibility_checks (Frame.mk 9 [(meta ++ [bv, pv]).map some]) then
        some (.successV, true)
      else some (.errorV, false)
    | _, _ => some (.errorV, false)

/-- Lines 166-195 of power_data_architecture.py: fetch the page and
extract the last-update text.  none models a crash: when the fetch or the
last-update extraction raises, the except clause sets the error flags but
line 187 then reads the unbound last_update variable.  Otherwise returns
the last-update text together with the shared initial flag value (Error
when the text is empty or shorter than 10 characters). -/
def fetchPhase (p : Page) : Option (String × TrackVal) :=
  if p.fetchOk then
    match p.lastUpdate with
    | some lu =>
      some (lu, if lu.length == 0 || lu.length < 10 then .errorV else .noneV)
    | none => none
  else none

/-- One pass of the combination loop of download_data
(power_data_architecture.py, lines 99-381) for the combination described
by the six key fields, against a page oracle.  When both archive checks
are true, only the prints and the unconditional line-381 sleep happen.
Otherwise the page is fetched, the hours block runs iff the hourly archive
check failed and the error flag is clear, the base/peak block runs iff the
base/peak archive check failed and its flag is clear, the tracking file is
updated (line 325: at least one check is false on this path), and the pass
ends with the same unconditional sleep. -/
def stepDayAhead (checkHours checkBasePeak : Bool)
    (marketArea modality subModality auctionName : String)
    (tradingDate deliveryDate : Nat) (p : Page) : StepResult :=
  if checkHours && checkBasePeak then
    { events := [.sleep], crashed := false }
  else
    match fetchPhase p with
    | none => { events := [.fetch], crashed := true }
    | some (lu, initTV) =>
      let meta := [Cell.str marketArea, Cell.date tradingDate, Cell.date deliveryDate,
        Cell.str modality, Cell.str subModality, Cell.str auctionName, Cell.str lu]
      let hres : Option (TrackVal × Bool) :=
        if checkHours = false ∧ initTV ≠ .errorV then hoursBlock meta p
        else some (initTV, false)
      match hres with
      | none => { events := [.fetch], crashed := true }
      | some hr =>
        let ev1 := [Event.fetch] ++ (if hr.2 then [Event.appendHours] else [])
        let bres : Option (TrackVal × Bool) :=
          if checkBasePeak = false ∧ initTV ≠ .errorV then basePeakBlock meta p
          else some (initTV, false)
        match bres with
        | none => { events := ev1, crashed := true }
        | some br =>
          let ev2 := ev1 ++ (if br.2 then [Event.appendBasePeak] else [])
          { events := ev2 ++ [Event.track, Event.sleep], crashed := false }

/-- One pass of the combination loop of download
(power_data_downloader_architecture.py, lines 94-619).  When the tracking
file check says the combination is archived (line 142), only prints
happen: no fetch, no tracking update and no sleep.  Otherwise the page is
fetched inside a try (line 160), the extract/merge body runs (lines
175-599, summarised by bodyOk: false models an uncaught exception there,
such as len(None) on line 340), update_tracking_file runs on line 614
(trackOk false models it raising, e.g. IndexError on an existing empty
file), and only then the line-617 sleep. -/
def stepDownloader (archiveCheck : Bool) (bodyOk trackOk : Bool) :
    List Event × Bool :=
  if archiveCheck then ([], false)
  else
    if ¬ bodyOk then ([.fetch], true)
    else
      if ¬ trackOk then ([.fetch], true)
      else ([.fetch, .track, .sleep], false)
/-- Membership in the deduplicated list: a row survives drop_duplicates
exactly when it occurs in the input and was not already seen. -/
theorem mem_dedupRows (x : List Cell) :
    ∀ (seen l : List (List Cell)), x ∈ dedupRows seen l ↔ (x ∈ l ∧ x ∉ seen) := by
  intro seen l
  induction l generalizing seen with
  | nil => simp [dedupRows]
  | cons r rest ih =>
    by_cases h : r ∈ seen
    · rw [dedupRows, if_pos h, ih]
      constructor
      · rintro ⟨h1, h2⟩
        exact ⟨List.mem_cons_of_mem _ h1, h2⟩
      · rintro ⟨h1, h2⟩
        rcases List.mem_cons.mp h1 with h3 | h3
        · exact absurd (h3 ▸ h) h2
        · exact ⟨h3, h2⟩
    · rw [dedupRows, if_neg h]
      constructor
      · intro h1
        rcases List.mem_cons.mp h1 with h3 | h3
        · exact ⟨List.mem_cons.mpr (Or.inl h3), h3 ▸ h⟩
        · rcases (ih (r :: seen)).mp h3 with ⟨h4, h5⟩
          exact ⟨List.mem_cons_of_mem _ h4, fun hc => h5 (List.mem_cons_of_mem _ hc)⟩
      · rintro ⟨h1, h2⟩
        rcases List.mem_cons.mp h1 with h3 | h3
        · exact List.mem_cons.mpr (Or.inl h3)
        · by_cases hr : x = r
          · exact List.mem_cons.mpr (Or.inl hr)
          · refine List.mem_cons_of_mem _ ((ih (r :: seen)).mpr ⟨h3, ?_⟩)
            intro hc
            rcases List.mem_cons.mp hc with h4 | h4
            · exact hr h4
            · exact h2 h4

/-- The whole-frame NaN test as a proposition. -/
theorem isnaAllAll_iff (f : Frame) :
    isnaAllAll f = true ↔ ∀ r ∈ f.rows, ∀ c ∈ r, c = none := by
  simp [isnaAllAll, Option.isNone_iff_eq_none]

/-- The single-column NaN test as a proposition. -/
theorem colAllNaN_iff (f : Frame) (j : Nat) :
    colAllNaN f j = true ↔ ∀ r ∈ f.rows, r.getD j none = none := by
  simp [colAllNaN, Option.isNone_iff_eq_none]

/-- C5: plausibility_checks returns false exactly when the table has zero
rows, or every cell is missing, or some column is entirely missing; in
particular rows with one all-missing column yield false, fully populated
rows yield true, and a zero-row table yields false. -/
theorem claim_C5_plausibility :
    (∀ f : Frame, plausibility_checks f = false ↔
      (f.rows = [] ∨ (∀ r ∈ f.rows, ∀ c ∈ r, c = none) ∨
        (∃ j < f.ncols, ∀ r ∈ f.rows, r.getD j none = none)))
    ∧ plausibility_checks
        (Frame.mk 2 [[some (Cell.num 1), none], [some (Cell.num 2), none]]) = false
    ∧ plausibility_checks
        (Frame.mk 2 [[some (Cell.num 1), some (Cell.num 2)],
          [some (Cell.num 3), some (Cell.num 4)]]) = true
    ∧ plausibility_checks (Frame.mk 2 []) = false := by
  refine ⟨fun f => ?_, by decide, by decide, by decide⟩
  by_cases h1 : isnaAllAll f = true
  · have hL : plausibility_checks f = false := by simp [plausibility_checks, h1]
    exact iff_of_true hL (Or.inr (Or.inl ((isnaAllAll_iff f).mp h1)))
  · by_cases h2 : ((List.range f.ncols).filter (fun j => colAllNaN f j)).length > 0
    · have hL : plausibility_checks f = false := by
        simp only [plausibility_checks, h1, if_false]
        simp [h2]
      refine iff_of_true hL ?_
      have hne := List.length_pos.mp h2
      rcases List.exists_mem_of_ne_nil _ hne with ⟨j, hj⟩
      rcases List.mem_filter.mp hj with ⟨hjr, hja⟩
      exact Or.inr (Or.inr ⟨j, List.mem_range.mp hjr, (colAllNaN_iff f j).mp hja⟩)
    · have hL : plausibility_checks f = true := by
        simp only [plausibility_checks, h1, if_false]
        simp [h2]
      refine iff_of_false (by simp [hL]) ?_
      rintro (h3 | h3 | ⟨j, hj, h3⟩)
      · exact h1 (by simp [isnaAllAll, h3])
      · exact h1 ((isnaAllAll_iff f).mpr h3)
      · refine h2 ?_
        have hmem : j ∈ (List.range f.ncols).filter (fun j => colAllNaN f j) :=
          List.mem_filter.mpr ⟨List.mem_range.mpr hj, (colAllNaN_iff f j).mpr h3⟩
        exact List.length_pos.mpr (List.ne_nil_of_mem hmem)

/-- The archive used by the existence-check example of the specification. -/
def exampleArchive : Table :=
  Table.mk ["A", "B", "C"]
    [[Cell.str "DE", Cell.date 20240501, Cell.num 5],
     [Cell.str "DE", Cell.date 20240501, Cell.num 5],
     [Cell.str "FR", Cell.date 20240501, Cell.num 5]]

/-- C2: check_archive is true exactly when some archive row, projected onto
the match columns, is value-equal to the key; it agrees with
check_existing_combinations applied to the projected, deduplicated table;
and on the example archive projected on A and B, the DE key is found and
the BE key is not. -/
theorem claim_C2_check_archive :
    (∀ (t : Table) (comb : List Cell) (cols : List String),
      check_archive t comb cols = true ↔ ∃ r ∈ t.rows, projectRow t.cols cols r = comb)
    ∧ (∀ (t : Table) (comb : List Cell) (cols : List String),
        check_archive t comb cols =
          check_existing_combinations
            (Table.mk (projectCols t.cols cols)
              (dedupRows [] (t.rows.map (projectRow t.cols cols)))) comb)
    ∧ check_archive exampleArchive [Cell.str "DE", Cell.date 20240501] ["A", "B"] = true
    ∧ check_archive exampleArchive [Cell.str "BE", Cell.date 20240501] ["A", "B"] = false := by
  refine ⟨fun t comb cols => ?_, fun t comb cols => rfl, by decide, by decide⟩
  simp only [check_archive, List.any_eq_true, beq_iff_eq]
  constructor
  · rintro ⟨r, hr, rfl⟩
    rcases (mem_dedupRows r [] _).mp hr with ⟨hr1, _⟩
    rcases List.mem_map.mp hr1 with ⟨r0, hr0, rfl⟩
    exact ⟨r0, hr0, rfl⟩
  · rintro ⟨r0, hr0, rfl⟩
    refine ⟨projectRow t.cols cols r0, ?_, rfl⟩
    exact (mem_dedupRows _ [] _).mpr ⟨List.mem_map_of_mem _ hr0, List.not_mem_nil _⟩

/-- C4: when the tracking file exists, update_tracking_file keeps the
stored header as first line, inserts the entry as first data row, keeps the
old data rows in order, and the header argument has no effect on the
result; when the file is absent it writes exactly the header argument
followed by the entry. -/
theorem claim_C4_update_tracking :
    (∀ (header0 : List String) (dataRows : List (List String))
        (entry headerNew : List String), entry.length = headerNew.length →
      update_tracking_file (some (header0 :: dataRows)) entry headerNew =
        (.ok (header0 :: entry :: dataRows), [.fread, .fwrite]))
    ∧ (∀ (rows : List (List String)) (entry headerA headerB : List String),
        entry.length = headerA.length → entry.length = headerB.length →
        update_tracking_file (some rows) entry headerA =
          update_tracking_file (some rows) entry headerB)
    ∧ (∀ (entry headerNew : List String), entry.length = headerNew.length →
        update_tracking_file none entry headerNew =
          (.ok [headerNew, entry], [.fwrite])) := by
  refine ⟨fun header0 dataRows entry headerNew h => ?_,
    fun rows entry hA hB h1 h2 => ?_, fun entry headerNew h => ?_⟩
  · simp [update_tracking_file, h]
  · have h3 : hA.length = hB.length := h1.symm.trans h2
    cases rows with
    | nil => simp [update_tracking_file, h1, h2, h3]
    | cons r rs => simp [update_tracking_file, h1, h2, h3]
  · simp [update_tracking_file, h]

/-- Witness for C4: recording into an existing two-line file and into a
missing file, at concrete values. -/
theorem claim_C4_witness :
    update_tracking_file (some [["H1", "H2"], ["a", "b"]]) ["x", "y"] ["N1", "N2"] =
      (.ok [["H1", "H2"], ["x", "y"], ["a", "b"]], [.fread, .fwrite])
    ∧ update_tracking_file none ["x", "y"] ["N1", "N2"] =
      (.ok [["N1", "N2"], ["x", "y"]], [.fwrite]) :=
  ⟨claim_C4_update_tracking.1 ["H1", "H2"] [["a", "b"]] ["x", "y"] ["N1", "N2"] (by decide),
   claim_C4_update_tracking.2.2 ["x", "y"] ["N1", "N2"] (by decide)⟩

/-- C10: when the tracking row and the header row have different lengths,
update_tracking_file stops with the assertion error and performs no file
read or write, whatever the state of the file. -/
theorem claim_C10_assert_first (file : Option (List (List String)))
    (entry headerRow : List String) (h : entry.length ≠ headerRow.length) :
    update_tracking_file file entry headerRow = (.error "AssertionError", []) := by
  simp [update_tracking_file, h]

/-- Witness for C10: a two-cell entry against a three-cell header over an
existing file aborts without touching the file. -/
theorem claim_C10_witness :
    update_tracking_file (some [["H1", "H2", "H3"], ["a", "b", "c"]]) ["x", "y"]
      ["H1", "H2", "H3"] = (.error "AssertionError", []) :=
  claim_C10_assert_first _ _ _ (by decide)
/-- C3: loading the skip-set keeps exactly the non-Error rows of the
(date-normalized) tracking table, projected onto the key columns and
deduplicated; consequently a combination all of whose entries are Error is
absent from the skip-set, its existence check is false, and the downloader
step for it re-attempts the fetch. -/
theorem claim_C3_import_existing (t : Table) (columnsToCheck : List String) (t1 : Table)
    (hconv : convertDeliveryDate t = some t1)
    (hsi : "SuccessIndicator" ∈ t1.cols)
    (tOut : Table)
    (hout : import_exsting_combinations_file t columnsToCheck = some tOut) :
    (tOut = Table.mk (projectCols t1.cols columnsToCheck)
        (dedupRows []
          ((t1.rows.filter (fun r => !(successIsError t1.cols r))).map
            (projectRow t1.cols columnsToCheck))))
    ∧ (∀ r, r ∈ tOut.rows ↔
        ∃ r0 ∈ t1.rows, successIsError t1.cols r0 = false ∧
          projectRow t1.cols columnsToCheck r0 = r)
    ∧ (∀ key : List Cell,
        (∀ r0 ∈ t1.rows, projectRow t1.cols columnsToCheck r0 = key →
          successIsError t1.cols r0 = true) →
        check_existing_combinations tOut key = false ∧
        ∀ bodyOk trackOk,
          Event.fetch ∈ (stepDownloader (check_existing_combinations tOut key) bodyOk trackOk).1) := by
  have heq : tOut = Table.mk (projectCols t1.cols columnsToCheck)
      (dedupRows []
        ((t1.rows.filter (fun r => !(successIsError t1.cols r))).map
          (projectRow t1.cols columnsToCheck))) := by
    rw [import_exsting_combinations_file, hconv] at hout
    simp only [hsi, if_pos] at hout
    exact (Option.some.inj hout).symm
  have hmem : ∀ r, r ∈ tOut.rows ↔
      ∃ r0 ∈ t1.rows, successIsError t1.cols r0 = false ∧
        projectRow t1.cols columnsToCheck r0 = r := by
    intro r
    rw [heq]
    simp only [Table.mk.injEq]
    rw [mem_dedupRows]
    simp only [List.not_mem_nil, not_false_iff, and_true, List.mem_map, List.mem_filter,
      Bool.not_eq_true']
    constructor
    · rintro ⟨r0, ⟨h1, h2⟩, h3⟩
      exact ⟨r0, h1, h2, h3⟩
    · rintro ⟨r0, h1, h2, h3⟩
      exact ⟨r0, ⟨h1, h2⟩, h3⟩
  refine ⟨heq, hmem, fun key hkey => ?_⟩
  have hcheck : check_existing_combinations tOut key = false := by
    by_contra hc
    have : check_existing_combinations tOut key = true := by
      revert hc
      cases check_existing_combinations tOut key <;> simp
    rcases List.any_eq_true.mp this with ⟨r, hr, hbeq⟩
    have hrk : r = key := by simpa using hbeq
    subst hrk
    rcases (hmem r).mp hr with ⟨r0, h1, h2, h3⟩
    exact absurd (hkey r0 h1 h3) (by simp [h2])
  refine ⟨hcheck, fun bodyOk trackOk => ?_⟩
  rw [hcheck]
  cases bodyOk <;> cases trackOk <;> simp [stepDownloader]

/-- The tracking table of the C3 witness: one combination whose only
ledger entry is marked Error (the DeliveryDate cell is already at day
granularity, so the date conversion is the identity on it). -/
def witnessTracking : Table :=
  Table.mk ["MarketArea", "DeliveryDate", "SuccessIndicator"]
    [[Cell.str "DE", Cell.date 20240501, Cell.str "Error"]]

/-- Witness for C3: the Error-only combination is not in the loaded
skip-set, so its existence check is false. -/
theorem claim_C3_witness :
    check_existing_combinations (Table.mk ["MarketArea", "DeliveryDate"] [])
      [Cell.str "DE", Cell.date 20240501] = false := by
  have h := claim_C3_import_existing witnessTracking ["MarketArea", "DeliveryDate"]
    witnessTracking rfl (by decide)
    (Table.mk ["MarketArea", "DeliveryDate"] []) rfl
  exact (h.2.2 [Cell.str "DE", Cell.date 20240501] (by decide)).1
/-- When every index stays within the hour labels, the assembly loop
yields one output row per data row, pairing each data row with the hour
label at the same position. -/
theorem assembleGo_some (meta : List Cell) (hours : List String) :
    ∀ (data : List (List Cell)) (i : Nat), i + data.length ≤ hours.length →
      assembleRows.go meta hours i data =
        some ((((hours.drop i).take data.length).zip data).map
          (fun p => meta ++ [Cell.str p.1] ++ p.2)) := by
  intro data
  induction data with
  | nil => intro i h; simp [assembleRows.go]
  | cons row rest ih =>
    intro i h
    have hi : i < hours.length := by
      simp only [List.length_cons] at h
      omega
    have hget : hours[i]? = some hours[i] := List.getElem?_eq_getElem hi
    have hrec := ih (i + 1) (by simp only [List.length_cons] at h; omega)
    rw [List.drop_eq_getElem_cons hi]
    simp only [List.length_cons, List.take_succ_cons, List.zip_cons_cons, List.map_cons]
    simp [assembleRows.go, hget, hrec]

/-- When the data rows outnumber the hour labels, the assembly loop hits
an out-of-range index and the whole assembly fails. -/
theorem assembleGo_none (meta : List Cell) (hours : List String) :
    ∀ (data : List (List Cell)) (i : Nat), i ≤ hours.length →
      hours.length < i + data.length →
      assembleRows.go meta hours i data = none := by
  intro data
  induction data with
  | nil =>
    intro i h1 h2
    simp only [List.length_nil] at h2
    omega
  | cons row rest ih =>
    intro i h1 h2
    by_cases hi : i < hours.length
    · have hget : hours[i]? = some hours[i] := List.getElem?_eq_getElem hi
      have hrec := ih (i + 1) (by omega) (by simp only [List.length_cons] at h2; omega)
      simp [assembleRows.go, hget, hrec]
    · have hget : hours[i]? = none := List.getElem?_eq_none (by omega)
      simp [assembleRows.go, hget]

/-- Counterexample to C6: two hour labels against three numeric rows does
not truncate to two assembled rows; the out-of-range index makes the whole
assembly fail (the IndexError is caught and the attempt is marked Error),
so the truncation is not symmetric. -/
theorem claim_C6_counterexample :
    assembleRows [] ["00 - 01", "01 - 02"]
      [[Cell.num 1], [Cell.num 2], [Cell.num 3]] = none := by rfl

/-- C6 as amended: the assembly truncates silently only when the hour
labels are at least as numerous as the numeric rows (each extra hour label
is dropped); when the numeric rows outnumber the hour labels the assembly
fails instead of truncating. -/
theorem claim_C6_amended :
    (∀ (meta : List Cell) (hours : List String) (data : List (List Cell)),
      data.length ≤ hours.length →
      assembleRows meta hours data =
        some (((hours.take data.length).zip data).map
          (fun p => meta ++ [Cell.str p.1] ++ p.2)))
    ∧ (∀ (meta : List Cell) (hours : List String) (data : List (List Cell)),
        hours.length < data.length → assembleRows meta hours data = none) := by
  constructor
  · intro meta hours data h
    have hgo := assembleGo_some meta hours data 0 (by omega)
    simpa [assembleRows] using hgo
  · intro meta hours data h
    have hgo := assembleGo_none meta hours data 0 (by omega) (by omega)
    simpa [assembleRows] using hgo

/-- Witness for the amended C6: three hour labels and two numeric rows
produce exactly two assembled rows. -/
theorem claim_C6_witness :
    assembleRows [] ["00 - 01", "01 - 02", "02 - 03"] [[Cell.num 1], [Cell.num 2]] =
      some [[Cell.str "00 - 01", Cell.num 1], [Cell.str "01 - 02", Cell.num 2]] := by
  have h := claim_C6_amended.1 [] ["00 - 01", "01 - 02", "02 - 03"]
    [[Cell.num 1], [Cell.num 2]] (by decide)
  exact h.trans (by rfl)
/-- Counterexample to C7: when the hour-list container is absent, the
continuous hour extraction does not fail with an error; it returns the
empty list (the early return on line 290 of
power_data_downloader_utils.py). -/
theorem claim_C7_counterexample :
    extract_hours_continous (HoursDoc.mk none) = .ok [] := rfl

/-- C7 as amended: the non-continuous extraction raises when the container
is absent and also when the container exists without its ul substructure;
in both of those situations the continuous variant returns the empty
sequence without an error, so only the non-continuous variant raises. -/
theorem claim_C7_amended :
    (∀ d : HoursDoc, d.container = none → extract_hours d = .error "AttributeError")
    ∧ (∀ (d : HoursDoc) (c : HoursContainer), d.container = some c → c.ul = none →
        extract_hours d = .error "AttributeError")
    ∧ (∀ (d : HoursDoc) (c : HoursContainer), d.container = some c → c.ul = none →
        extract_hours_continous d = .ok [])
    ∧ (∀ d : HoursDoc, d.container = none → extract_hours_continous d = .ok []) := by
  refine ⟨fun d h => ?_, fun d c h1 h2 => ?_, fun d c h1 h2 => ?_, fun d h => ?_⟩
  · simp [extract_hours, h]
  · simp [extract_hours, h1, h2]
  · simp [extract_hours_continous, h1, h2]
  · simp [extract_hours_continous, h]

/-- Witness for the amended C7: the concrete document with a container but
no ul makes the non-continuous variant raise and the continuous variant
return the empty sequence; the concrete document without a container does
the same for the continuous variant. -/
theorem claim_C7_witness :
    extract_hours (HoursDoc.mk (some (HoursContainer.mk none))) = .error "AttributeError"
    ∧ extract_hours_continous (HoursDoc.mk (some (HoursContainer.mk none))) = .ok []
    ∧ extract_hours (HoursDoc.mk none) = .error "AttributeError" :=
  ⟨claim_C7_amended.2.1 _ (HoursContainer.mk none) rfl rfl,
   claim_C7_amended.2.2.1 _ (HoursContainer.mk none) rfl rfl,
   claim_C7_amended.1 _ rfl⟩

/-- The label a sub-interval node contributes to the continuous hour list. -/
def subLabel (n : LiNode) : String :=
  pyStrip (n.aText.getD "")

/-- A well-formed sub-interval node: not itself an hour block, tagged
lvl-1 (half hour) or lvl-2 (quarter hour), and carrying a label. -/
def goodSub (n : LiNode) : Prop :=
  liChild n = false ∧
    (n.classes.contains "lvl-1" = true ∨ n.classes.contains "lvl-2" = true) ∧
    n.aText.isSome = true

instance (n : LiNode) : Decidable (goodSub n) := by
  unfold goodSub
  infer_instance

/-- The sibling walk collects exactly the labels of a run of well-formed
sub-interval nodes, stopping at the end of the list or at the next hour
block. -/
theorem collectSubs_of_good (subs tail : List LiNode)
    (hgood : ∀ n ∈ subs, goodSub n)
    (htail : tail = [] ∨ ∃ m t2, tail = m :: t2 ∧ liChild m = true) :
    collectSubs (subs ++ tail) = .ok (subs.map subLabel) := by
  induction subs with
  | nil =>
    rcases htail with h | ⟨m, t2, rfl, hm⟩
    · simp [h, collectSubs]
    · simp [collectSubs, hm]
  | cons n rest ih =>
    rcases hgood n (List.mem_cons_self n rest) with ⟨hnc, hlvl, hsome⟩
    rcases Option.isSome_iff_exists.mp hsome with ⟨t, ht⟩
    have hrec := ih (fun m hm => hgood m (List.mem_cons_of_mem n hm))
    by_cases hl1 : n.classes.contains "lvl-1" = true
    · have hm1 : "lvl-1" ∈ n.classes := by simpa using hl1
      simp [collectSubs, hnc, hm1, getAText, ht, hrec, subLabel]
      rfl
    · have hl2 : n.classes.contains "lvl-2" = true := by
        rcases hlvl with h | h
        · exact absurd h hl1
        · exact h
      have hm1n : "lvl-1" ∉ n.classes := by simpa using hl1
      have hm2 : "lvl-2" ∈ n.classes := by simpa using hl2
      simp [collectSubs, hnc, hm1n, hm2, getAText, ht, hrec, subLabel]
      rfl

/-- The outer block loop ignores a run of non-block nodes at the front. -/
theorem processBlocks_skip (subs tail : List LiNode)
    (hgood : ∀ n ∈ subs, liChild n = false) :
    processBlocks (subs ++ tail) = processBlocks tail := by
  induction subs with
  | nil => simp
  | cons n rest ih =>
    have hn := hgood n (List.mem_cons_self n rest)
    have hrec := ih (fun m hm => hgood m (List.mem_cons_of_mem n hm))
    simp [processBlocks, hn, hrec]

/-- The hour-block node carrying a given label. -/
def childNode (s : String) : LiNode :=
  LiNode.mk ["child"] (some s)

/-- C8: on a document whose li list is a sequence of hour blocks, each
followed by its well-formed sub-interval nodes, the continuous extraction
returns, block by block in document order, the stripped block label
followed by the stripped sub-interval labels in document order. -/
theorem claim_C8_interleaving (blocks : List (String × List LiNode))
    (hgood : ∀ b ∈ blocks, ∀ n ∈ b.2, goodSub n) :
    extract_hours_continous
      (HoursDoc.mk (some (HoursContainer.mk
        (some (blocks.flatMap (fun b => childNode b.1 :: b.2))))))
      = .ok (blocks.flatMap (fun b => pyStrip b.1 :: b.2.map subLabel)) := by
  show processBlocks (blocks.flatMap (fun b => childNode b.1 :: b.2))
      = .ok (blocks.flatMap (fun b => pyStrip b.1 :: b.2.map subLabel))
  induction blocks with
  | nil => simp [processBlocks]
  | cons b bs ih =>
    have hb := hgood b (List.mem_cons_self b bs)
    have hrec := ih (fun b2 hb2 => hgood b2 (List.mem_cons_of_mem b hb2))
    have hchild : liChild (childNode b.1) = true := rfl
    have htail : bs.flatMap (fun b => childNode b.1 :: b.2) = [] ∨
        ∃ m t2, bs.flatMap (fun b => childNode b.1 :: b.2) = m :: t2 ∧
          liChild m = true := by
      cases bs with
      | nil => exact Or.inl rfl
      | cons b2 bs2 =>
        exact Or.inr ⟨childNode b2.1, b2.2 ++ bs2.flatMap (fun b => childNode b.1 :: b.2),
          by simp [List.flatMap_cons], rfl⟩
    have hsubs := collectSubs_of_good b.2 (bs.flatMap (fun b => childNode b.1 :: b.2)) hb htail
    have hskip := processBlocks_skip b.2 (bs.flatMap (fun b => childNode b.1 :: b.2))
      (fun n hn => (hb n hn).1)
    simp only [List.flatMap_cons, List.cons_append]
    rw [processBlocks]
    have haText : getAText (childNode b.1) = .ok (pyStrip b.1) := rfl
    simp [hchild, haText, hsubs, hskip, hrec]
    rfl
/-- A quarter-hour sub-interval node as rendered on the continuous page. -/
def quarterNode (s : String) : LiNode :=
  LiNode.mk ["sub-child", "lvl-2"] (some s)

/-- Witness for C8: the hour block 00 - 01 with four nested quarter-hour
sub-intervals, followed by the block 01 - 02 with its four sub-intervals,
yields the interleaved ten-label sequence of the specification. -/
theorem claim_C8_witness :
    extract_hours_continous
      (HoursDoc.mk (some (HoursContainer.mk (some
        ([("00 - 01", [quarterNode "00:00 - 00:15", quarterNode "00:15 - 00:30",
            quarterNode "00:30 - 00:45", quarterNode "00:45 - 01:00"]),
          ("01 - 02", [quarterNode "01:00 - 01:15", quarterNode "01:15 - 01:30",
            quarterNode "01:30 - 01:45", quarterNode "01:45 - 02:00"])].flatMap
          (fun b => childNode b.1 :: b.2))))))
      = .ok ["00 - 01", "00:00 - 00:15", "00:15 - 00:30", "00:30 - 00:45", "00:45 - 01:00",
          "01 - 02", "01:00 - 01:15", "01:15 - 01:30", "01:30 - 01:45", "01:45 - 02:00"] := by
  have h := claim_C8_interleaving
    [("00 - 01", [quarterNode "00:00 - 00:15", quarterNode "00:15 - 00:30",
        quarterNode "00:30 - 00:45", quarterNode "00:45 - 01:00"]),
     ("01 - 02", [quarterNode "01:00 - 01:15", quarterNode "01:15 - 01:30",
        quarterNode "01:30 - 01:45", quarterNode "01:45 - 02:00"])]
    (by decide)
  exact h.trans (by rfl)
/-- When both archive checks hold, the pass is a pure skip: no fetch, no
append, no tracking — but the unconditional line-381 sleep still runs. -/
theorem stepDayAhead_skip (ma mo sm an : String) (td dd : Nat) (p : Page) :
    stepDayAhead true true ma mo sm an td dd p =
      StepResult.mk [Event.sleep] false := rfl

/-- Whenever at least one archive check fails, the pass fetches the page. -/
theorem stepDayAhead_fetch_mem (cH cB : Bool) (ma mo sm an : String) (td dd : Nat)
    (p : Page) (h : (cH && cB) = false) :
    Event.fetch ∈ (stepDayAhead cH cB ma mo sm an td dd p).events := by
  simp only [stepDayAhead, h, Bool.false_eq_true, if_false]
  split
  · simp
  · split
    · simp
    · split
      · simp
      · simp

/-- When the hourly archive already holds the combination, the pass never
appends to the hourly archive, whatever the sibling check or the page. -/
theorem stepDayAhead_appendHours_not_mem (cB : Bool) (ma mo sm an : String)
    (td dd : Nat) (p : Page) :
    Event.appendHours ∉ (stepDayAhead true cB ma mo sm an td dd p).events := by
  cases cB
  · simp only [stepDayAhead, Bool.and_false, Bool.false_eq_true, if_false]
    split
    · simp
    · simp only [show (true = false ∧ _ ≠ TrackVal.errorV) = False from by simp]
      split
      · simp
      · split
        · simp_all [Prod.ext_iff]
        · simp_all [Prod.ext_iff]
  · rw [stepDayAhead_skip]
    simp

/-- When the base/peak archive already holds the combination, the pass
never appends to the base/peak archive. -/
theorem stepDayAhead_appendBasePeak_not_mem (cH : Bool) (ma mo sm an : String)
    (td dd : Nat) (p : Page) :
    Event.appendBasePeak ∉ (stepDayAhead cH true ma mo sm an td dd p).events := by
  cases cH
  · simp only [stepDayAhead, Bool.false_and, Bool.false_eq_true, if_false]
    split
    · simp
    · split
      · simp
      · simp only [show (true = false ∧ _ ≠ TrackVal.errorV) = False from by simp]
        split
        · simp_all [Prod.ext_iff]
        · simp_all [Prod.ext_iff]
  · rw [stepDayAhead_skip]
    simp

/-- C1: in the day-ahead/intraday driver pass, the fetch happens exactly
when at least one of the two archive checks fails, and each append is
guarded by its own archive check: an append into the hourly archive
implies the hourly check failed, and likewise for base/peak, even when
only the sibling was missing. -/
theorem claim_C1_guards (cH cB : Bool) (ma mo sm an : String) (td dd : Nat) (p : Page) :
    (Event.fetch ∈ (stepDayAhead cH cB ma mo sm an td dd p).events ↔
      ¬(cH = true ∧ cB = true))
    ∧ (Event.appendHours ∈ (stepDayAhead cH cB ma mo sm an td dd p).events → cH = false)
    ∧ (Event.appendBasePeak ∈ (stepDayAhead cH cB ma mo sm an td dd p).events → cB = false) := by
  refine ⟨?_, ?_, ?_⟩
  · cases cH <;> cases cB
    · exact iff_of_true (stepDayAhead_fetch_mem false false ma mo sm an td dd p rfl) (by simp)
    · exact iff_of_true (stepDayAhead_fetch_mem false true ma mo sm an td dd p rfl) (by simp)
    · exact iff_of_true (stepDayAhead_fetch_mem true false ma mo sm an td dd p rfl) (by simp)
    · rw [stepDayAhead_skip]
      simp
  · cases cH
    · exact fun _ => rfl
    · exact fun hm => absurd hm (stepDayAhead_appendHours_not_mem cB ma mo sm an td dd p)
  · cases cB
    · exact fun _ => rfl
    · exact fun hm => absurd hm (stepDayAhead_appendBasePeak_not_mem cH ma mo sm an td dd p)

/-- A page on which every extraction succeeds with well-shaped data. -/
def pageGood : Page :=
  Page.mk true (some "0123456789") (some ["00 - 01"])
    (some [[Cell.num 1, Cell.num 2, Cell.num 3, Cell.num 4]])
    (some (some (Cell.num 5), some (Cell.num 6)))

/-- Witness for C1: on a fully successful page with both checks false, the
fetch happens, and the hours append that does occur entails the hourly
check was false. -/
theorem claim_C1_witness :
    Event.fetch ∈
      (stepDayAhead false false "DE" "Auction" "Intraday" "SDAC" 20240430 20240501
        pageGood).events
    ∧ (false = false) :=
  ⟨(claim_C1_guards false false "DE" "Auction" "Intraday" "SDAC" 20240430 20240501
      pageGood).1.mpr (by simp),
   (claim_C1_guards false false "DE" "Auction" "Intraday" "SDAC" 20240430 20240501
      pageGood).2.1 (by decide)⟩

/-- Counterexample to C9: in download_data (power_data_architecture.py),
the backoff sleep on line 381 runs even for a combination skipped because
both archives already contain it — the claim says no delay follows a
skipped combination. -/
theorem claim_C9_counterexample :
    Event.sleep ∈
      (stepDayAhead true true "DE" "Auction" "Intraday" "SDAC" 20240430 20240501
        pageGood).events := by decide

/-- C9 as amended: in the downloader driver the sleep happens exactly
after a non-skipped combination whose body and tracking update complete;
in the day-ahead/intraday driver the sleep happens after every pass that
completes without an uncaught exception, including pure skips. -/
theorem claim_C9_amended :
    (∀ archiveCheck bodyOk trackOk : Bool,
      Event.sleep ∈ (stepDownloader archiveCheck bodyOk trackOk).1 ↔
        (archiveCheck = false ∧ bodyOk = true ∧ trackOk = true))
    ∧ (∀ (cH cB : Bool) (ma mo sm an : String) (td dd : Nat) (p : Page),
        (stepDayAhead cH cB ma mo sm an td dd p).crashed = false →
        Event.sleep ∈ (stepDayAhead cH cB ma mo sm an td dd p).events) := by
  constructor
  · decide
  · intro cH cB ma mo sm an td dd p
    by_cases hcb : (cH && cB) = true
    · intro _
      simp [stepDayAhead, hcb]
    · rw [Bool.not_eq_true] at hcb
      simp only [stepDayAhead, hcb, Bool.false_eq_true, if_false]
      split
      · simp
      · split
        · simp
        · split
          · simp
          · simp

/-- Witness for the amended C9: a completed non-skipped pass of each
driver ends with the sleep. -/
theorem claim_C9_witness :
    Event.sleep ∈ (stepDownloader false true true).1
    ∧ Event.sleep ∈
      (stepDayAhead false false "DE" "Auction" "Intraday" "SDAC" 20240430 20240501
        pageGood).events :=
  ⟨(claim_C9_amended.1 false true true).mpr (by simp),
   claim_C9_amended.2 false false "DE" "Auction" "Intraday" "SDAC" 20240430 20240501
     pageGood (by decide)⟩

/-- Witness for C2: applying the existence-check characterization at the
FR row of the example archive. -/
theorem claim_C2_witness :
    check_archive exampleArchive [Cell.str "FR", Cell.date 20240501] ["A", "B"] = true :=
  (claim_C2_check_archive.1 exampleArchive [Cell.str "FR", Cell.date 20240501]
    ["A", "B"]).mpr
    ⟨[Cell.str "FR", Cell.date 20240501, Cell.num 5], by decide, by decide⟩

/-- Witness for C5: applying the characterization to a zero-row frame. -/
theorem claim_C5_witness :
    plausibility_checks (Frame.mk 3 []) = false :=
  (claim_C5_plausibility.1 (Frame.mk 3 [])).mpr (Or.inl rfl)
